import Mathlib

/-!
# Verification of the tomlguard guarded-access core

A shallow embedding of the `tomlguard` package (`src/tomlguard/`): the plain
attribute-access facade (`GuardBase` + `TomlAccess_m`), the guarded failure
proxy (`TomlGuardFailureProxy`), the default registry
(`DefaultedReporter_m`), the guard entry points (`GuardProxyEntryMixin`) and
`TomlGuard.merge`.

Python values are modelled by the inductive `PyVal` (floats and datetimes are
omitted: no statement here involves them).  `TomlGuard`/`GuardBase` instances
are modelled by the `vGuard` constructor carrying the wrapped table and the
traversal index, mirroring how such objects flow through Python code as
ordinary values.  Python dicts are association lists with unique keys;
`List.lookup` (first binding) coincides with dict lookup.  Fallible code
returns `Except PyErr`.
-/

/-- Python runtime values as they flow through tomlguard.  `vGuard t i`
models a `GuardBase`/`TomlGuard` instance wrapping table `t` with traversal
index `i`. -/
inductive PyVal where
  | vNone  : PyVal
  | vBool  : Bool → PyVal
  | vInt   : Int → PyVal
  | vStr   : String → PyVal
  | vList  : List PyVal → PyVal
  | vTuple : List PyVal → PyVal
  | vDict  : List (String × PyVal) → PyVal
  | vGuard : List (String × PyVal) → List String → PyVal

open PyVal

/-- A python table: the `__table` dict of a `GuardBase`. -/
abbrev TGTable := List (String × PyVal)

/-- Python truthiness (`bool(v)`).  A `GuardBase` has `__len__`, so its
truthiness is non-emptiness of its table. -/
def pyTruthy : PyVal → Bool
  | vNone => false
  | vBool b => b
  | vInt n => n != 0
  | vStr s => s ≠ ""
  | vList xs => !xs.isEmpty
  | vTuple xs => !xs.isEmpty
  | vDict xs => !xs.isEmpty
  | vGuard t _ => !t.isEmpty

/-- `isinstance(v, dict)` — `GuardBase` is a `Mapping`, not a `dict`. -/
def isDictV : PyVal → Bool
  | vDict _ => true
  | _ => false

/-- `repr` of a list of keys, as inside `GuardBase.__repr__`. -/
def pyReprKeys : List String → String
  | [] => ""
  | [k] => "'" ++ k ++ "'"
  | k :: ks => "'" ++ k ++ "', " ++ pyReprKeys ks

mutual

/-- Python `repr` restricted to the values of our model (best-effort: string
escaping is not reproduced; the tomlguard registry only ever formats plain
configuration values). -/
def pyRepr : PyVal → String
  | vNone => "None"
  | vBool true => "True"
  | vBool false => "False"
  | vInt n => toString n
  | vStr s => "'" ++ s ++ "'"
  | vList xs => "[" ++ pyReprList xs ++ "]"
  | vTuple [x] => "(" ++ pyRepr x ++ ",)"
  | vTuple xs => "(" ++ pyReprList xs ++ ")"
  | vDict xs => "\x7b" ++ pyReprPairs xs ++ "\x7d"
  | vGuard t _ => "<TomlGuard:[" ++ pyReprKeys (t.map Prod.fst) ++ "]>"

def pyReprList : List PyVal → String
  | [] => ""
  | [x] => pyRepr x
  | x :: xs => pyRepr x ++ ", " ++ pyReprList xs

def pyReprPairs : List (String × PyVal) → String
  | [] => ""
  | [(k, v)] => "'" ++ k ++ "': " ++ pyRepr v
  | (k, v) :: xs => "'" ++ k ++ "': " ++ pyRepr v ++ ", " ++ pyReprPairs xs

end

/-- The Python exceptions raised by the embedded code.  `tomlAccessError`
carries the message and, when the code passes one (`proxy_mixin.on_fail`),
the offending index list; the other raises pass no list, modelled as `[]`. -/
inductive PyErr where
  | tomlAccessError : String → List String → PyErr
  | typeError : String → PyErr
  | valueError : String → PyErr
  | keyError : List String → PyErr
  | notImplementedError : PyErr
  | attributeError : PyErr

/-- An optionally-absent value: `nullFB` is the `NullFallback` sentinel
(`typing.NoReturn`), used both for a proxy's `_data` ("no value" marker) and
for its `_fallback` ("no fallback given"). -/
inductive PVal where
  | nullFB : PVal
  | v : PyVal → PVal

/-- Truthiness of a possibly-`NullFallback` value: the `typing.NoReturn`
sentinel object is truthy in Python (no `__bool__`/`__len__`). -/
def pvTruthy : PVal → Bool
  | .nullFB => true
  | .v x => pyTruthy x

/-- The Python classes that appear as declared expected types. -/
inductive PyType where
  | tStr | tInt | tBool | tNone | tList | tDict | tTuple

/-- The `types` field of a proxy: `Any`, a single class, or a
`types.UnionType` (`str | int`). -/
inductive TypesDecl where
  | anyT : TypesDecl
  | single : PyType → TypesDecl
  | union : List PyType → TypesDecl

/-- `isinstance(v, t)` for our classes.  `bool` is a subclass of `int`;
`GuardBase` is neither a `dict` nor a `list`. -/
def isinstanceV : PyVal → PyType → Bool
  | vStr _, .tStr => true
  | vInt _, .tInt => true
  | vBool _, .tInt => true
  | vBool _, .tBool => true
  | vNone, .tNone => true
  | vList _, .tList => true
  | vDict _, .tDict => true
  | vTuple _, .tTuple => true
  | _, _ => false

/-- `type.__name__` / `str(t)` for a single class. -/
def pyTypeName : PyType → String
  | .tStr => "str"
  | .tInt => "int"
  | .tBool => "bool"
  | .tNone => "NoneType"
  | .tList => "list"
  | .tDict => "dict"
  | .tTuple => "tuple"

/-- `TomlGuardProxy._types_str` (`base.py:102-111`): name of a single type,
`repr` of a union, `"Any"` for `typing.Any` (a class from Python 3.11 on). -/
def typesStr : TypesDecl → String
  | .anyT => "Any"
  | .single t => pyTypeName t
  | .union ts => String.intercalate " | " (ts.map pyTypeName)

/-- The boolean core of `TomlGuardProxy._match_type` (`base.py:113-119`):
`self._types == Any or isinstance(val, self._types)`.  `isinstance` of the
`NullFallback` sentinel against any concrete class is false. -/
def matchTypeOk (td : TypesDecl) : PVal → Bool
  | .nullFB => match td with | .anyT => true | _ => false
  | .v x => match td with
    | .anyT => true
    | .single t => isinstanceV x t
    | .union ts => ts.any (isinstanceV x)

/-- Python `a or b` on values (returns `a` when truthy, else `b`). -/
def pyOr (a b : PyVal) : PyVal := if pyTruthy a then a else b

/-- `attr.replace("_", "-")`: for the single-character pattern this is
exactly a character map. -/
def hyphenate (s : String) : String :=
  String.mk (s.data.map fun c => if c == '_' then '-' else c)

/-- `dict.get(k, None)` on a table. -/
def dictGetD (t : TGTable) (k : String) : PyVal := (t.lookup k).getD vNone

/-- A `GuardBase` (`_base.py:52`): the wrapped `__table` dict and the
`__index` traversal path (starting `["<root>"]`). -/
structure GuardBase where
  table : TGTable
  index : List String

namespace GuardBase

/-- `TomlAccess_m.__getattr__` (`access_m.py:58-74`): raise `TomlAccessError`
when neither `attr` nor its underscore-to-hyphen variant is a key; otherwise
dispatch on `table.get(attr, None) or table.get(attr.replace("_","-"), None)`:
a dict becomes a child tree (index extended by `attr`), a list all of whose
elements are dicts becomes a list of child trees each keeping the parent's
index, and anything else is returned as-is. -/
def getattr (g : GuardBase) (attr : String) : Except PyErr PyVal :=
  let t := g.table
  let hy := hyphenate attr
  if !((t.lookup attr).isSome || (t.lookup hy).isSome) then
    .error (.tomlAccessError
      (String.intercalate "." (g.index ++ [attr]) ++ " not found, available: ["
        ++ String.intercalate " " (t.map Prod.fst) ++ "]") [])
  else
    match pyOr (dictGetD t attr) (dictGetD t hy) with
    | vDict d => .ok (vGuard d (g.index ++ [attr]))
    | vList xs =>
        if xs.all isDictV then
          .ok (vList (xs.filterMap fun x => match x with
            | vDict d => some (vGuard d g.index)
            | _ => none))
        else .ok (vList xs)
    | v => .ok v

/-- The loop of `TomlAccess_m.__getitem__` (`access_m.py:76-87`):
`for key in keys: curr = curr.__getattr__(key)`, written as recursion on the
keys.  A non-`GuardBase` intermediate value has no `__getattr__`, so Python
raises `AttributeError` there. -/
def getitemLoop : PyVal → List String → Except PyErr PyVal
  | cur, [] => .ok cur
  | cur, k :: ks =>
      match cur with
      | vGuard d i => getattr ⟨d, i⟩ k >>= fun c => getitemLoop c ks
      | _ => .error .attributeError

/-- `TomlAccess_m.__getitem__` applied to a tuple of string keys. -/
def getitem (g : GuardBase) (keys : List String) : Except PyErr PyVal :=
  getitemLoop (vGuard g.table g.index) keys

end GuardBase

/-- The registry of `DefaultedReporter_m` (`reporter_m.py:45`): the class
variable `_defaulted`, a set of formatted strings, modelled as a
duplicate-free list (insertion keeps the first occurrence). -/
abbrev Registry := List String

/-- The entry string built by `DefaultedReporter_m.add_defaulted`
(`reporter_m.py:47-65`) for a string index: booleans print lowercase, every
other value prints with `repr`, `NullFallback` prints as
`repr(typing.NoReturn)`. -/
def defaultEntryStr (indexStr : String) (val : PVal) (types : String) : String :=
  match val with
  | .v (vBool b) => indexStr ++ " = " ++ (if b then "true" else "false") ++ " # <" ++ types ++ ">"
  | .v x => indexStr ++ " = " ++ pyRepr x ++ " # <" ++ types ++ ">"
  | .nullFB => indexStr ++ " = typing.NoReturn # <" ++ types ++ ">"

/-- `DefaultedReporter_m.add_defaulted` for a string index: format the entry
and add it to the set (adding an already-present string changes nothing). -/
def addDefaulted (r : Registry) (indexStr : String) (val : PVal) (types : String) : Registry :=
  let s := defaultEntryStr indexStr val types
  if s ∈ r then r else r ++ [s]

/-- `TomlGuardFailureProxy` (`failure.py:65`): resolution target `_data`,
declared `_types`, chain `_index`, and `_fallback`. -/
structure FailProxy where
  data : PVal
  types : TypesDecl
  index : List String
  fallback : PVal

/-- The fallback-storing step of `TomlGuardFailureProxy.__init__`
(`failure.py:76-79`): a fallback equal to the tuple `(None,)` is stored as
`None`. -/
def storeFB (fb : PVal) : PVal :=
  match fb with
  | .v (vTuple [vNone]) => .v vNone
  | x => x

/-- `TomlGuardFailureProxy.__init__` (`failure.py:74-82`) on top of
`TomlGuardProxy.__init__` (`base.py:50-54`): `types or Any`, `index or
["<root>"]`, store the fallback (translating `(None,)` to `None`), and when
the *given* fallback is truthy run `_match_type` on the *stored* fallback,
raising `TypeError` on a mismatch. -/
def mkFailProxy (data : PVal) (types : Option TypesDecl) (index : Option (List String))
    (fb : PVal) : Except PyErr FailProxy :=
  let td := types.getD .anyT
  let idx := match index with
    | none => ["<root>"]
    | some [] => ["<root>"]
    | some l => l
  let stored := storeFB fb
  if pvTruthy fb && !matchTypeOk td stored then
    .error (.typeError "TomlProxy Value doesn't match declared Type")
  else
    .ok ⟨data, td, idx, stored⟩

namespace FailProxy

/-- `TomlGuardFailureProxy._inject` (`failure.py:130-142`): with `clear` the
new target is `NullFallback`; with no value given the old target is kept;
otherwise the given value becomes the target.  The new proxy is built by the
constructor again, with index `self._index(attr)` and the stored fallback. -/
def inject (p : FailProxy) (val : Option PVal) (attr : String) (clear : Bool) :
    Except PyErr FailProxy :=
  let newData := if clear then PVal.nullFB else
    match val with
    | none => p.data
    | some x => x
  mkFailProxy newData (some p.types) (some (p.index ++ [attr])) p.fallback

/-- `TomlGuardFailureProxy.__getattr__` (`failure.py:107-117`): a
`NullFallback` target raises `TomlAccessError`, caught to inject a cleared
proxy; a `GuardBase` target is indexed (a missing key is likewise caught and
cleared); any other target is kept unchanged.  The attempted name is always
appended to the index. -/
def getattr (p : FailProxy) (attr : String) : Except PyErr FailProxy :=
  match p.data with
  | .nullFB => p.inject none attr true
  | .v (vGuard d i) =>
      match GuardBase.getattr ⟨d, i⟩ attr with
      | .ok x => p.inject (some (.v x)) attr false
      | .error (.tomlAccessError _ _) => p.inject none attr true
      | .error e => .error e
  | .v _ => p.inject none attr false

/-- `TomlGuardFailureProxy.__getitem__` (`failure.py:119-128`) applied to a
tuple of string keys: `for key in keys: curr = curr.__getattr__(key)`,
written as recursion on the keys. -/
def getitem : FailProxy → List String → Except PyErr FailProxy
  | p, [] => .ok p
  | p, k :: ks => p.getattr k >>= fun q => getitem q ks

/-- `TomlGuardProxy._notify` (`base.py:88-100`): a `GuardBase` target or an
empty index records nothing; a `NullFallback` target records the fallback;
any other target records the target value itself. -/
def notifyReg (p : FailProxy) (r : Registry) : Registry :=
  match p.data with
  | .v (vGuard _ _) => r
  | _ =>
    match p.index with
    | [] => r
    | idx =>
      match p.data with
      | .nullFB => addDefaulted r (String.intercalate "." idx) p.fallback (typesStr p.types)
      | .v x => addDefaulted r (String.intercalate "." idx) (.v x) (typesStr p.types)

/-- `TomlGuardFailureProxy.__call__` (`failure.py:84-105`) with the default
identity wrappers, plus the registry side effect of `_notify`.  The case
analysis mirrors the `match self._data, self._fallback` statement: both
`NullFallback` raises `ValueError`; target `NullFallback`/`None` with
fallback `None` gives `None`; target `NullFallback`/`None` otherwise gives
the fallback; a `GuardBase` target gives its table as a plain dict; any
other target gives itself.  The result then passes `_match_type`. -/
def call (p : FailProxy) (r : Registry) : Except PyErr PVal × Registry :=
  let r2 := notifyReg p r
  let res : Except PyErr PVal :=
    match p.data, p.fallback with
    | .nullFB, .nullFB => .error (.valueError "No Value, and no fallback")
    | .nullFB, .v vNone => .ok (.v vNone)
    | .v vNone, .v vNone => .ok (.v vNone)
    | .nullFB, fb => .ok fb
    | .v vNone, fb => .ok fb
    | .v (vGuard d _), _ => .ok (.v (vDict d))
    | .v x, _ => .ok (.v x)
  match res with
  | .error e => (.error e, r2)
  | .ok val =>
      if matchTypeOk p.types val then (.ok val, r2)
      else (.error (.typeError "TomlProxy Value doesn't match declared Type"), r2)

end FailProxy

namespace GuardBase

/-- `GuardProxyEntryMixin.on_fail` (`proxy_mixin.py:44-55`): raise
`TomlAccessError("On Fail not declared at entry", index)` when the index is
not exactly `["<root>"]` and `non_root` is false; otherwise construct a
failure proxy over `self` with the given types and fallback (and a fresh
`["<root>"]` proxy index). -/
def on_fail (g : GuardBase) (fallback : PVal) (types : Option TypesDecl)
    (nonRoot : Bool) : Except PyErr FailProxy :=
  if g.index ≠ ["<root>"] && !nonRoot then
    .error (.tomlAccessError "On Fail not declared at entry" g.index)
  else
    mkFailProxy (.v (vGuard g.table g.index)) types none fallback

/-- `GuardProxyEntryMixin.first_of` (`proxy_mixin.py:57-63`): the body is
`raise NotImplementedError()`. -/
def first_of (_g : GuardBase) (_fallback : PVal) (_types : Option TypesDecl) :
    Except PyErr FailProxy :=
  .error .notImplementedError

/-- `GuardProxyEntryMixin.all_of` (`proxy_mixin.py:65-66`): the body is
`raise NotImplementedError()`. -/
def all_of (_g : GuardBase) (_fallback : PVal) (_types : Option TypesDecl) :
    Except PyErr FailProxy :=
  .error .notImplementedError

/-- `GuardProxyEntryMixin.flatten_on` (`proxy_mixin.py:68-72`): the body is
`raise NotImplementedError()`. -/
def flatten_on (_g : GuardBase) (_fallback : PVal) : Except PyErr FailProxy :=
  .error .notImplementedError

/-- `GuardProxyEntryMixin.match_on` (`proxy_mixin.py:74-75`): the body is
`raise NotImplementedError()`. -/
def match_on (_g : GuardBase) (_kwargs : List (String × PyVal)) : Except PyErr FailProxy :=
  .error .notImplementedError

end GuardBase

/-- The key set of one argument to `merge`: `set(data.keys())`. -/
def tableKeys (t : TGTable) : List String := t.map Prod.fst

/-- The conflict scan of `TomlGuard.merge` (`tomlguard.py:85-91`): walk the
arguments accumulating seen keys; on the first argument whose keys intersect
the accumulated set (unless `shadow`), report that intersection. -/
def mergeScan (shadow : Bool) : List TGTable → List String → Option (List String)
  | [], _ => none
  | d :: ds, curr =>
      let ks := tableKeys d
      let ov := curr.filter (fun k => k ∈ ks)
      if !ov.isEmpty && !shadow then some ov
      else mergeScan shadow ds (curr ++ ks.filter (fun k => k ∉ curr))

/-- `TomlGuard.merge` (`tomlguard.py:73-94`): raise
`KeyError("Key Conflict:", keys)` on a detected conflict, else wrap
`ChainMap(*dicts)` in a fresh tree.  A `ChainMap` resolves each key in the
first dict that contains it, which for association lists is exactly lookup
in the concatenation. -/
def TomlGuard.merge (ds : List TGTable) (shadow : Bool) : Except PyErr GuardBase :=
  match mergeScan shadow ds [] with
  | some ov => .error (.keyError ov)
  | none => .ok ⟨ds.flatten, ["<root>"]⟩

/-- A proxy state whose re-injection cannot fail: the constructor's
fallback type check passes.  Every proxy actually built by
`TomlGuardFailureProxy.__init__` satisfies this (the same check already ran
there). -/
def injectOk (p : FailProxy) : Bool :=
  !pvTruthy p.fallback || matchTypeOk p.types (storeFB p.fallback)

/-- Repeated plain-dict indexing of a value with a key sequence: defined at
each step only when the current value is a dict containing the key. -/
def plainIndexVal : PyVal → List String → Option PyVal
  | v, [] => some v
  | vDict t, k :: ks =>
      (match t.lookup k with
       | some v => plainIndexVal v ks
       | none => none)
  | _, _ :: _ => none

/-- The side condition under which `TomlAccess_m.__getattr__`'s
`table.get(attr, None) or table.get(attr.replace("_","-"), None)` dispatch
reproduces plain dict lookup along a path: at each step the stored value is
truthy, or the key is unchanged by underscore-to-hyphen replacement. -/
def pathOk : PyVal → List String → Bool
  | _, [] => true
  | vDict t, k :: ks =>
      (match t.lookup k with
       | some v => (pyTruthy v || (hyphenate k == k)) && pathOk v ks
       | none => false)
  | _, _ :: _ => false

mutual

/-- A plain data value: contains no `GuardBase` wrapper anywhere (the shape
of parsed TOML data). -/
def plainVal : PyVal → Bool
  | vNone => true
  | vBool _ => true
  | vInt _ => true
  | vStr _ => true
  | vList xs => plainValList xs
  | vTuple xs => plainValList xs
  | vDict xs => plainValPairs xs
  | vGuard _ _ => false

def plainValList : List PyVal → Bool
  | [] => true
  | x :: xs => plainVal x && plainValList xs

def plainValPairs : List (String × PyVal) → Bool
  | [] => true
  | (_, x) :: xs => plainVal x && plainValPairs xs

end

/-- Strip a `GuardBase` wrapper from a single value. -/
def stripElem : PyVal → PyVal
  | vGuard d _ => vDict d
  | x => x

/-- Strip the wrappers `TomlAccess_m.__getattr__` can introduce in its
result: a tree at top level, or trees as elements of a returned list. -/
def stripTop : PyVal → PyVal
  | vGuard d _ => vDict d
  | vList xs => vList (xs.map stripElem)
  | x => x

/-- The result `__getattr__` produces from the value found for a key:
dict cases become child trees with the extended index, all-dict lists become
lists of trees carrying the parent index, all else passes through. -/
def getattrDispatch (childIdx parentIdx : List String) : PyVal → Except PyErr PyVal
  | vDict d => .ok (vGuard d childIdx)
  | vList xs =>
      if xs.all isDictV then
        .ok (vList (xs.filterMap fun x => match x with
          | vDict d => some (vGuard d parentIdx)
          | _ => none))
      else .ok (vList xs)
  | x => .ok x

/-- The formatted registry entry a proxy produces when `_notify` records its
fallback (the `_data is NullFallback` branch). -/
def defaultEntry (p : FailProxy) : String :=
  defaultEntryStr (String.intercalate "." p.index) p.fallback (typesStr p.types)

/-- `n` successive invocations of the same proxy, threading the registry. -/
def callIterReg (p : FailProxy) : Nat → Registry → Registry
  | 0, r => r
  | n + 1, r => callIterReg p n (p.call r).2

/-- Key resolution of `ChainMap(d1, d2, ...)`: the value from the first
mapping that contains the key. -/
def chainLookup : List TGTable → String → Option PyVal
  | [], _ => none
  | d :: ds, k =>
      match d.lookup k with
      | some v => some v
      | none => chainLookup ds k

theorem storeFB_idem (x : PVal) : storeFB (storeFB x) = storeFB x := by
  rcases x with _ | x
  · rfl
  · rcases x with _ | b | n | s | l | tu | d | ⟨t, i⟩ <;> try rfl
    rcases tu with _ | ⟨a, _ | ⟨b, rest⟩⟩
    · rfl
    · cases a <;> rfl
    · cases a <;> rfl

theorem pvTruthy_storeFB {x : PVal} (h : pvTruthy (storeFB x) = true) :
    pvTruthy x = true := by
  rcases x with _ | x
  · rfl
  · rcases x with _ | b | n | s | l | tu | d | ⟨t, i⟩ <;> try exact h
    rcases tu with _ | ⟨a, _ | ⟨b, rest⟩⟩
    · exact h
    · cases a <;> first
        | exact h
        | (exfalso; simp [storeFB, pvTruthy, pyTruthy] at h)
    · cases a <;> exact h

theorem appendSingleton_ne_nil (l : List String) (a : String) : l ++ [a] ≠ [] := by
  cases l <;> simp

/-- Under `injectOk`, `_inject` succeeds and produces the expected record. -/
theorem inject_eq (p : FailProxy) (val : Option PVal) (attr : String) (clear : Bool)
    (h : injectOk p = true) :
    p.inject val attr clear =
      .ok ⟨if clear then PVal.nullFB else (match val with | none => p.data | some x => x),
        p.types, p.index ++ [attr], storeFB p.fallback⟩ := by
  have hcond : (pvTruthy p.fallback && !matchTypeOk p.types (storeFB p.fallback)) = false := by
    cases ht : pvTruthy p.fallback
    · simp
    · unfold injectOk at h
      rw [ht] at h
      simp at h
      simp [h]
  rcases hl : p.index ++ [attr] with _ | ⟨b, bs⟩
  · exact absurd hl (appendSingleton_ne_nil p.index attr)
  · simp only [FailProxy.inject, mkFailProxy, Option.getD, hl, hcond]
    simp [← hl]

/-- `injectOk` is preserved by `_inject` (the new fallback is the stored
one, which the constructor checked). -/
theorem injectOk_preserved (p : FailProxy) (d : PVal) (h : injectOk p = true) :
    injectOk ⟨d, p.types, p.index, storeFB p.fallback⟩ = true := by
  unfold injectOk at h ⊢
  simp only at h ⊢
  rw [storeFB_idem]
  rcases ht : pvTruthy (storeFB p.fallback) with _ | _
  · simp
  · have := pvTruthy_storeFB ht
    rcases Bool.or_eq_true_iff.mp h with h' | h'
    · rw [this] at h'
      simp at h'
    · simp [h']

/--
C1: For every guarded accessor whose current resolution target is the
"no value" marker, every subsequent attribute access returns a new accessor
whose target is also the "no value" marker, with the attempted name appended
to the chain index; iterating over any list of further names, the chain
never recovers to a found value.
-/
theorem claim_C1_sticky_fallback (p : FailProxy) (as : List String)
    (hok : injectOk p = true) (hd : p.data = .nullFB) :
    ∃ q, p.getitem as = .ok q ∧ q.data = .nullFB ∧ q.index = p.index ++ as := by
  induction as generalizing p with
  | nil =>
      exact ⟨p, rfl, hd, by simp⟩
  | cons a as ih =>
      have hstep : p.getattr a =
          .ok ⟨.nullFB, p.types, p.index ++ [a], storeFB p.fallback⟩ := by
        unfold FailProxy.getattr
        rw [hd]
        simpa using inject_eq p none a true hok
      have hok' : injectOk ⟨.nullFB, p.types, p.index ++ [a], storeFB p.fallback⟩ = true := by
        have := injectOk_preserved p .nullFB hok
        unfold injectOk at this ⊢
        simpa using this
      obtain ⟨q, hq, hqd, hqi⟩ :=
        ih ⟨.nullFB, p.types, p.index ++ [a], storeFB p.fallback⟩ hok' rfl
      refine ⟨q, ?_, hqd, ?_⟩
      · rw [FailProxy.getitem, hstep]
        simpa using hq
      · rw [hqi]
        simp

/-- Witness for C1 at a concrete stuck proxy and two further accesses. -/
theorem claim_C1_sticky_fallback_witness :
    ∃ q, FailProxy.getitem ⟨.nullFB, .anyT, ["<root>", "x"], .v (vStr "fb")⟩ ["a", "b"]
        = .ok q ∧ q.data = .nullFB ∧ q.index = ["<root>", "x"] ++ ["a", "b"] :=
  claim_C1_sticky_fallback ⟨.nullFB, .anyT, ["<root>", "x"], .v (vStr "fb")⟩
    ["a", "b"] (by decide) rfl

theorem lookup_mem {t : TGTable} {k : String} {v : PyVal} (h : t.lookup k = some v) :
    (k, v) ∈ t := by
  induction t with
  | nil => simp [List.lookup] at h
  | cons a t ih =>
      rw [List.lookup] at h
      cases hk : k == a.1 with
      | true =>
          rw [hk] at h
          cases h
          have hk2 : k = a.1 := by simpa using hk
          subst hk2
          exact List.mem_cons_self _ _
      | false =>
          rw [hk] at h
          exact List.mem_cons_of_mem _ (ih h)

theorem plainVal_of_pairs {t : TGTable} {k : String} {v : PyVal}
    (hp : plainValPairs t = true) (hm : (k, v) ∈ t) : plainVal v = true := by
  induction t with
  | nil => simp at hm
  | cons a t ih =>
      obtain ⟨ak, av⟩ := a
      rw [plainValPairs] at hp
      rcases List.mem_cons.mp hm with h | h
      · cases h
        exact (Bool.and_eq_true_iff.mp hp).1
      · exact ih (Bool.and_eq_true_iff.mp hp).2 h

theorem map_stripElem_plain {xs : List PyVal} (hp : plainValList xs = true) :
    xs.map stripElem = xs := by
  induction xs with
  | nil => rfl
  | cons x xs ih =>
      rw [plainValList] at hp
      obtain ⟨h1, h2⟩ := Bool.and_eq_true_iff.mp hp
      rw [List.map_cons, ih h2]
      cases x <;> first
        | rfl
        | simp [plainVal] at h1

theorem map_stripElem_wrapped {xs : List PyVal} (i : List String)
    (hd : xs.all isDictV = true) :
    (xs.filterMap fun x => match x with
      | vDict d => some (vGuard d i)
      | _ => none).map stripElem = xs := by
  induction xs with
  | nil => rfl
  | cons x xs ih =>
      rw [List.all_cons] at hd
      obtain ⟨h1, h2⟩ := Bool.and_eq_true_iff.mp hd
      cases x <;> simp [isDictV] at h1
      simpa [List.filterMap_cons, stripElem] using ih h2

/-- The dispatch of `__getattr__` when the key is present and the truthiness
side condition holds. -/
theorem plainIndexVal_nil (v : PyVal) : plainIndexVal v [] = some v := by
  cases v <;> rfl

theorem getattr_found (t : TGTable) (i : List String) (k : String) (v : PyVal)
    (hl : t.lookup k = some v) (hc : (pyTruthy v || (hyphenate k == k)) = true) :
    GuardBase.getattr ⟨t, i⟩ k = getattrDispatch (i ++ [k]) i v := by
  have hOr : pyOr (dictGetD t k) (dictGetD t (hyphenate k)) = v := by
    rcases Bool.or_eq_true_iff.mp hc with h | h
    · simp only [pyOr, dictGetD, hl, Option.getD_some]
      rw [if_pos h]
    · have hk : hyphenate k = k := by simpa using h
      simp only [pyOr, dictGetD, hk, hl, Option.getD_some]
      split <;> rfl
  simp only [GuardBase.getattr, hl, Option.isSome_some, Bool.true_or, Bool.not_true,
    Bool.false_eq_true, if_false, hOr]
  cases v <;> rfl

/--
Counterexample to C2 as stated: for `M = \x7b"a_b": 0\x7d` and path
`["a_b"]` (the key is present), plain indexing yields `0` while the tree
access yields `None` — `table.get("a_b", None)` is falsy, so the code falls
through to `table.get("a-b", None)`, which is absent.
-/
theorem claim_C2_counterexample :
    GuardBase.getitem ⟨[("a_b", vInt 0)], ["<root>"]⟩ ["a_b"] = .ok vNone
      ∧ plainIndexVal (vDict [("a_b", vInt 0)]) ["a_b"] = some (vInt 0)
      ∧ vNone ≠ vInt 0 :=
  ⟨rfl, rfl, fun h => PyVal.noConfusion h⟩

/--
C2 (amended): for every mapping `M` of plain data and nonempty key sequence
`P` present at each successive level, *provided additionally that at each
step the stored value is truthy or the key contains no underscore* (the
`get(attr) or get(hyphenated)` dispatch otherwise diverges from plain
lookup), `ValueTree(M)[P]` returns exactly the repeated plain-dict indexing
result: a final mapping is wrapped as a child tree over the same underlying
data (index extended by `P`), a final list of mappings is wrapped
elementwise, and any other value is returned as-is.
-/
theorem claim_C2_plain_indexing (t : TGTable) (i0 P : List String) (v : PyVal)
    (hne : P ≠ []) (hok : pathOk (vDict t) P = true)
    (hv : plainIndexVal (vDict t) P = some v)
    (hp : plainVal (vDict t) = true) :
    ∃ r, GuardBase.getitem ⟨t, i0⟩ P = .ok r ∧ stripTop r = v ∧
      (∀ d, v = vDict d → r = vGuard d (i0 ++ P)) := by
  induction P generalizing t i0 with
  | nil => exact absurd rfl hne
  | cons k ks ih =>
      rw [pathOk] at hok
      rw [plainIndexVal] at hv
      rcases hl : t.lookup k with _ | w
      · rw [hl] at hv
        exact absurd hv (by simp)
      · rw [hl] at hok hv
        obtain ⟨hc, hok2⟩ := Bool.and_eq_true_iff.mp hok
        have hv2 : plainIndexVal w ks = some v := hv
        have hw : plainVal w = true := plainVal_of_pairs hp (lookup_mem hl)
        have hstep := getattr_found t i0 k w hl hc
        have hfold : GuardBase.getitem ⟨t, i0⟩ (k :: ks)
            = GuardBase.getattr ⟨t, i0⟩ k >>= fun c => GuardBase.getitemLoop c ks := rfl
        rcases ks with _ | ⟨k2, ks⟩
        · -- last step
          rw [plainIndexVal_nil] at hv2
          have hv3 := Option.some.inj hv2
          subst hv3
          rw [hfold, hstep]
          cases w with
          | vDict d =>
              exact ⟨vGuard d (i0 ++ [k]), rfl, rfl, fun d2 hd => by cases hd; rfl⟩
          | vList xs =>
              by_cases hall : xs.all isDictV = true
              · refine ⟨vList (xs.filterMap fun x => match x with
                  | vDict d => some (vGuard d i0)
                  | _ => none), ?_, ?_, ?_⟩
                · simp only [getattrDispatch, if_pos hall]
                  rfl
                · simp only [stripTop]
                  rw [map_stripElem_wrapped i0 hall]
                · intro d2 hd
                  exact absurd hd (fun h => PyVal.noConfusion h)
              · refine ⟨vList xs, ?_, ?_, ?_⟩
                · simp only [getattrDispatch, if_neg hall]
                  rfl
                · simp only [stripTop]
                  rw [map_stripElem_plain (by simpa [plainVal] using hw)]
                · intro d2 hd
                  exact absurd hd (fun h => PyVal.noConfusion h)
          | vNone => exact ⟨vNone, rfl, rfl, fun d2 hd => absurd hd (fun h => PyVal.noConfusion h)⟩
          | vBool b => exact ⟨vBool b, rfl, rfl, fun d2 hd => absurd hd (fun h => PyVal.noConfusion h)⟩
          | vInt n => exact ⟨vInt n, rfl, rfl, fun d2 hd => absurd hd (fun h => PyVal.noConfusion h)⟩
          | vStr s => exact ⟨vStr s, rfl, rfl, fun d2 hd => absurd hd (fun h => PyVal.noConfusion h)⟩
          | vTuple xs => exact ⟨vTuple xs, rfl, rfl, fun d2 hd => absurd hd (fun h => PyVal.noConfusion h)⟩
          | vGuard d j => simp [plainVal] at hw
        · -- intermediate step: the value must be a dict for plain indexing
          cases w with
          | vDict t2 =>
              obtain ⟨r, hr, hs, hg⟩ := ih t2 (i0 ++ [k]) (by simp) hok2 hv2 hw
              refine ⟨r, ?_, hs, ?_⟩
              · rw [hfold, hstep]
                exact hr
              · intro d hd
                rw [hg d hd]
                simp
          | vNone => exact absurd hv2 (by simp [plainIndexVal])
          | vBool b => exact absurd hv2 (by simp [plainIndexVal])
          | vInt n => exact absurd hv2 (by simp [plainIndexVal])
          | vStr s => exact absurd hv2 (by simp [plainIndexVal])
          | vList xs => exact absurd hv2 (by simp [plainIndexVal])
          | vTuple xs => exact absurd hv2 (by simp [plainIndexVal])
          | vGuard d j => exact absurd hv2 (by simp [plainIndexVal])

/-- Witness for the amended C2 at `M = \x7b"a": \x7b"b": "x"\x7d\x7d`,
`P = ["a", "b"]`. -/
theorem claim_C2_plain_indexing_witness :
    ∃ r, GuardBase.getitem ⟨[("a", vDict [("b", vStr "x")])], ["<root>"]⟩ ["a", "b"]
        = .ok r ∧ stripTop r = vStr "x" ∧
      (∀ d, vStr "x" = vDict d → r = vGuard d (["<root>"] ++ ["a", "b"])) :=
  claim_C2_plain_indexing [("a", vDict [("b", vStr "x")])] ["<root>"] ["a", "b"]
    (vStr "x") (by simp) (by decide) rfl (by decide)

/--
C3: the code records a registry entry even when the chain resolved to a real
leaf value.  At `M = \x7b"test": "blah"\x7d`, `on_fail("aweg").test()`
returns the found value `"blah"` but also adds
`"<root>.test = 'blah' # <Any>"` to the defaulted registry, although no
fallback was used — `_notify`'s final `case val, _, [*index]` fires for any
non-`GuardBase` target, contradicting the claim (and `report_defaulted`'s
stated purpose of reporting *missing* paths).
-/
theorem claim_C3_records_found_value :
    (do
      let p0 ← GuardBase.on_fail ⟨[("test", vStr "blah")], ["<root>"]⟩
        (.v (vStr "aweg")) none false
      let p1 ← p0.getattr "test"
      pure (p1.call [])) =
    Except.ok ((Except.ok (PVal.v (vStr "blah")), ["<root>.test = 'blah' # <Any>"])
      : Except PyErr PVal × Registry) := by
  rfl

/--
Counterexample to C4 as stated: `on_fail(0, str)` does not raise at
construction — `__init__` guards the type check with `if fallback:`, and the
falsy fallback `0` skips it, although `0` is not an instance of `str`.
-/
theorem claim_C4_counterexample :
    GuardBase.on_fail ⟨[], ["<root>"]⟩ (.v (vInt 0)) (some (.single .tStr)) false
        = .ok ⟨.v (vGuard [] ["<root>"]), .single .tStr, ["<root>"], .v (vInt 0)⟩
      ∧ isinstanceV (vInt 0) .tStr = false :=
  ⟨rfl, rfl⟩

/--
C4 (amended): for every *truthy* fallback whose stored form fails the
declared expected type, `on_fail(f, T)` raises `TypeMismatch` (a
`TypeError`) immediately at construction; a falsy fallback skips the
construction-time check.
-/
theorem claim_C4_ctor_typecheck (g : GuardBase) (f : PVal) (td : TypesDecl) (nr : Bool)
    (hroot : g.index = ["<root>"] ∨ nr = true)
    (ht : pvTruthy f = true) (hm : matchTypeOk td (storeFB f) = false) :
    GuardBase.on_fail g f (some td) nr
      = .error (.typeError "TomlProxy Value doesn't match declared Type") := by
  have hcond : (decide ¬g.index = ["<root>"] && !nr) = false := by
    rcases hroot with h | h
    · simp [h]
    · simp [h]
  rw [GuardBase.on_fail]
  rw [hcond]
  simp only [Bool.false_eq_true, if_false, mkFailProxy, Option.getD, ht, hm]
  rfl

/-- Witness for the amended C4: a truthy string fallback against `int`. -/
theorem claim_C4_ctor_typecheck_witness :
    GuardBase.on_fail ⟨[], ["<root>"]⟩ (.v (vStr "s")) (some (.single .tInt)) false
      = .error (.typeError "TomlProxy Value doesn't match declared Type") :=
  claim_C4_ctor_typecheck ⟨[], ["<root>"]⟩ (.v (vStr "s")) (.single .tInt) false
    (Or.inl rfl) rfl rfl

/--
Counterexample to C5 as stated: invoking a no-value, no-fallback accessor
raises `ValueError("No Value, and no fallback")`, which is not a
`TomlAccessError` of any form.
-/
theorem claim_C5_counterexample :
    (FailProxy.call ⟨.nullFB, .anyT, ["<root>", "x"], .nullFB⟩ []).1
        = .error (.valueError "No Value, and no fallback")
      ∧ ∀ msg idx, PyErr.valueError "No Value, and no fallback" ≠ .tomlAccessError msg idx :=
  ⟨rfl, fun _ _ h => PyErr.noConfusion h⟩

/--
C5 (amended): invoking a guarded accessor whose target is the "no value"
marker with no fallback supplied always raises
`ValueError("No Value, and no fallback")` — it never returns a value, but
the error is a `ValueError`, not a `TomlAccessError`.
-/
theorem claim_C5_no_fallback (p : FailProxy) (r : Registry)
    (hd : p.data = .nullFB) (hf : p.fallback = .nullFB) :
    (p.call r).1 = .error (.valueError "No Value, and no fallback") := by
  rw [FailProxy.call, hd, hf]

/-- Witness for the amended C5 at a concrete stuck, fallback-less proxy. -/
theorem claim_C5_no_fallback_witness :
    (FailProxy.call ⟨.nullFB, .single .tStr, ["<root>", "y"], .nullFB⟩ []).1
      = .error (.valueError "No Value, and no fallback") :=
  claim_C5_no_fallback ⟨.nullFB, .single .tStr, ["<root>", "y"], .nullFB⟩ [] rfl rfl

/--
Counterexample to C6 as stated: `first_of` on a non-root tree raises
`NotImplementedError`, not the not-at-entry `TomlAccessError` — the four
iterator entry methods are unimplemented stubs.
-/
theorem claim_C6_counterexample :
    GuardBase.first_of ⟨[], ["<root>", "sub"]⟩ (.v (vStr "f")) none
        = .error .notImplementedError
      ∧ ∀ msg idx, PyErr.notImplementedError ≠ .tomlAccessError msg idx :=
  ⟨rfl, fun _ _ h => PyErr.noConfusion h⟩

/--
C6 (amended): `on_fail` (with `non_root` left false) raises the not-at-entry
`TomlAccessError` carrying the offending index whenever the tree's index is
not exactly the root sentinel; `first_of`, `all_of`, `flatten_on` and
`match_on` instead raise `NotImplementedError` unconditionally and never
construct an accessor.
-/
theorem claim_C6_entry_methods :
    (∀ (g : GuardBase) (f : PVal) (t : Option TypesDecl), g.index ≠ ["<root>"] →
        GuardBase.on_fail g f t false
          = .error (.tomlAccessError "On Fail not declared at entry" g.index))
      ∧ (∀ (g : GuardBase) (f : PVal) (t : Option TypesDecl),
          GuardBase.first_of g f t = .error .notImplementedError)
      ∧ (∀ (g : GuardBase) (f : PVal) (t : Option TypesDecl),
          GuardBase.all_of g f t = .error .notImplementedError)
      ∧ (∀ (g : GuardBase) (f : PVal),
          GuardBase.flatten_on g f = .error .notImplementedError)
      ∧ (∀ (g : GuardBase) (kw : List (String × PyVal)),
          GuardBase.match_on g kw = .error .notImplementedError) := by
  refine ⟨?_, fun _ _ _ => rfl, fun _ _ _ => rfl, fun _ _ => rfl, fun _ _ => rfl⟩
  intro g f t h
  rw [GuardBase.on_fail]
  simp [h]

/-- Witness for the amended C6: `on_fail` away from root. -/
theorem claim_C6_entry_methods_witness :
    GuardBase.on_fail ⟨[], ["<root>", "sub"]⟩ (.v (vStr "f")) none false
      = .error (.tomlAccessError "On Fail not declared at entry" ["<root>", "sub"]) :=
  claim_C6_entry_methods.1 ⟨[], ["<root>", "sub"]⟩ (.v (vStr "f")) none (by simp)

theorem lookup_append (d rest : TGTable) (k : String) :
    List.lookup k (d ++ rest)
      = (match d.lookup k with
         | some v => some v
         | none => rest.lookup k) := by
  induction d with
  | nil => simp [List.lookup]
  | cons a d ih =>
      rw [List.cons_append, List.lookup, List.lookup]
      cases hk : k == a.1
      · simpa [hk] using ih
      · simp [hk]

theorem lookup_flatten (ds : List TGTable) (k : String) :
    List.lookup k ds.flatten = chainLookup ds k := by
  induction ds with
  | nil => rfl
  | cons d ds ih =>
      rw [List.flatten_cons, chainLookup, lookup_append]
      cases d.lookup k
      · simpa using ih
      · rfl

theorem chainLookup_isSome (ds : List TGTable) (k : String) :
    (chainLookup ds k).isSome = true ↔ ∃ d, d ∈ ds ∧ (d.lookup k).isSome = true := by
  induction ds with
  | nil => simp [chainLookup]
  | cons d ds ih =>
      rw [chainLookup]
      cases hd : d.lookup k
      · simp only [Option.isSome]
        constructor
        · intro h
          obtain ⟨e, he, hs⟩ := ih.mp h
          exact ⟨e, List.mem_cons_of_mem _ he, hs⟩
        · intro ⟨e, he, hs⟩
          rcases List.mem_cons.mp he with rfl | he
          · rw [hd] at hs
            simp at hs
          · exact ih.mpr ⟨e, he, hs⟩
      · simp only [Option.isSome_some, true_iff]
        exact ⟨d, List.mem_cons_self _ _, by simp [hd]⟩

theorem mergeScan_shadow (ds : List TGTable) (curr : List String) :
    mergeScan true ds curr = none := by
  induction ds generalizing curr with
  | nil => rfl
  | cons d ds ih =>
      rw [mergeScan]
      simpa using ih _

/--
C7: merging two documents with a shared top-level key and `shadow=false`
raises the key-conflict `KeyError` naming exactly the overlapping keys;
with `shadow=true` the merge succeeds for any argument list, every key
resolves to the value from the earliest argument containing it (`ChainMap`
first-wins), and a key is present in the result iff it is present in some
argument.
-/
theorem claim_C7_merge :
    (∀ d1 d2 : TGTable, (∃ k, k ∈ tableKeys d1 ∧ k ∈ tableKeys d2) →
        ∃ ov, TomlGuard.merge [d1, d2] false = .error (.keyError ov) ∧ ov ≠ []
          ∧ ∀ k, (k ∈ ov ↔ k ∈ tableKeys d1 ∧ k ∈ tableKeys d2))
      ∧ (∀ ds : List TGTable, ∃ g, TomlGuard.merge ds true = .ok g
          ∧ (∀ k, g.table.lookup k = chainLookup ds k)
          ∧ (∀ k, (g.table.lookup k).isSome = true
              ↔ ∃ d, d ∈ ds ∧ (d.lookup k).isSome = true)) := by
  constructor
  · intro d1 d2 ⟨k0, h1, h2⟩
    refine ⟨(tableKeys d1).filter (fun k => k ∈ tableKeys d2), ?_, ?_, ?_⟩
    · rw [TomlGuard.merge]
      have hscan : mergeScan false [d1, d2] []
          = some ((tableKeys d1).filter (fun k => k ∈ tableKeys d2)) := by
        rw [mergeScan]
        have hov : (([] : List String).filter (fun k => k ∈ tableKeys d1)).isEmpty = true := rfl
        rw [hov]
        simp only [Bool.not_true, Bool.false_and, Bool.false_eq_true, if_false]
        rw [mergeScan]
        have hcur : (([] : List String) ++ (tableKeys d1).filter (fun k => k ∉ ([] : List String)))
            = tableKeys d1 := by simp
        rw [hcur]
        have hne : (((tableKeys d1).filter (fun k => k ∈ tableKeys d2)).isEmpty) = false := by
          rw [List.isEmpty_eq_false_iff_exists_mem]
          exact ⟨k0, List.mem_filter.mpr ⟨h1, by simpa using h2⟩⟩
        rw [hne]
        rfl
      rw [hscan]
    · intro h
      have : k0 ∈ (tableKeys d1).filter (fun k => k ∈ tableKeys d2) :=
        List.mem_filter.mpr ⟨h1, by simpa using h2⟩
      rw [h] at this
      simp at this
    · intro k
      rw [List.mem_filter]
      simp
  · intro ds
    refine ⟨⟨ds.flatten, ["<root>"]⟩, ?_, ?_, ?_⟩
    · rw [TomlGuard.merge, mergeScan_shadow]
    · intro k
      exact lookup_flatten ds k
    · intro k
      rw [lookup_flatten]
      exact chainLookup_isSome ds k

/-- Witness for C7: the spec's own examples, a conflict on `"a"` and a
first-wins shadowed merge. -/
theorem claim_C7_merge_witness :
    (∃ ov, TomlGuard.merge [[("a", vInt 2)], [("a", vInt 5), ("b", vInt 5)]] false
        = .error (.keyError ov) ∧ ov ≠ []
      ∧ ∀ k, (k ∈ ov ↔ k ∈ tableKeys [("a", vInt 2)]
          ∧ k ∈ tableKeys [("a", vInt 5), ("b", vInt 5)])) :=
  claim_C7_merge.1 [("a", vInt 2)] [("a", vInt 5), ("b", vInt 5)]
    ⟨"a", by simp [tableKeys], by simp [tableKeys]⟩

theorem call_snd (p : FailProxy) (r : Registry) : (p.call r).2 = p.notifyReg r := by
  rw [FailProxy.call]
  split
  · rfl
  · split <;> rfl

theorem notify_nullFB (p : FailProxy) (r : Registry)
    (hd : p.data = .nullFB) (hi : p.index ≠ []) :
    p.notifyReg r
      = addDefaulted r (String.intercalate "." p.index) p.fallback (typesStr p.types) := by
  rw [FailProxy.notifyReg, hd]
  rcases h : p.index with _ | ⟨a, as⟩
  · exact absurd h hi
  · rfl

theorem call_reg_nullFB (p : FailProxy) (r : Registry)
    (hd : p.data = .nullFB) (hi : p.index ≠ []) :
    (p.call r).2 = if defaultEntry p ∈ r then r else r ++ [defaultEntry p] := by
  rw [call_snd, notify_nullFB p r hd hi]
  rfl

/--
C8: invoking the same missing-path accessor (same index chain, same
fallback, same declared type) any number of times adds at most the one
formatted `"path = value # type"` entry to the registry: entries
deduplicate by exact string equality, so `n+1` invocations leave exactly
the registry with that single entry added (or unchanged when already
present).
-/
theorem claim_C8_idempotent_recording (p : FailProxy) (r : Registry) (n : Nat)
    (hd : p.data = .nullFB) (hi : p.index ≠ []) :
    callIterReg p (n + 1) r
      = if defaultEntry p ∈ r then r else r ++ [defaultEntry p] := by
  have aux : ∀ (m : Nat) (r2 : Registry), defaultEntry p ∈ r2 → callIterReg p m r2 = r2 := by
    intro m
    induction m with
    | zero => intro r2 _; rfl
    | succ m ih =>
        intro r2 h2
        rw [callIterReg, call_reg_nullFB p r2 hd hi, if_pos h2]
        exact ih r2 h2
  rw [callIterReg, call_reg_nullFB p r hd hi]
  have hmem : defaultEntry p ∈ (if defaultEntry p ∈ r then r else r ++ [defaultEntry p]) := by
    by_cases h : defaultEntry p ∈ r <;> simp [h]
  exact aux n _ hmem

/-- Witness for C8: two invocations of a concrete missing-path proxy from an
empty registry. -/
theorem claim_C8_idempotent_recording_witness :
    callIterReg ⟨.nullFB, .anyT, ["<root>", "a"], .v (vStr "f")⟩ 2 []
      = if defaultEntry ⟨.nullFB, .anyT, ["<root>", "a"], .v (vStr "f")⟩ ∈ ([] : Registry)
        then [] else [] ++ [defaultEntry ⟨.nullFB, .anyT, ["<root>", "a"], .v (vStr "f")⟩] :=
  claim_C8_idempotent_recording ⟨.nullFB, .anyT, ["<root>", "a"], .v (vStr "f")⟩ [] 1
    rfl (by simp)

/--
Counterexample to C9 as stated: on a non-root tree,
`on_fail(5, str, non_root=True)` raises `TypeError` from the constructor's
fallback type check instead of returning a guarded proxy — so with
`non_root=True` the call is not guaranteed to return a proxy.
-/
theorem claim_C9_counterexample :
    GuardBase.on_fail ⟨[], ["<root>", "sub"]⟩ (.v (vInt 5)) (some (.single .tStr)) true
        = .error (.typeError "TomlProxy Value doesn't match declared Type")
      ∧ ∀ p : FailProxy,
        (Except.error (PyErr.typeError "TomlProxy Value doesn't match declared Type")
          : Except PyErr FailProxy) ≠ .ok p :=
  ⟨rfl, fun _ h => Except.noConfusion h⟩

/--
C9 (amended): with `non_root=True`, `on_fail` never performs the root-only
entry check: on any tree (root or not) it returns a guarded proxy over that
subtree (with a fresh root chain index) whenever the fallback passes the
constructor's type check; with `non_root` false it raises the not-at-entry
error on every non-root tree — the root-only check is skipped exactly when
`non_root` is true.
-/
theorem claim_C9_non_root :
    (∀ (g : GuardBase) (f : PVal) (td : Option TypesDecl),
        (pvTruthy f = true → matchTypeOk (td.getD .anyT) (storeFB f) = true) →
        GuardBase.on_fail g f td true
          = .ok ⟨.v (vGuard g.table g.index), td.getD .anyT, ["<root>"], storeFB f⟩)
      ∧ (∀ (g : GuardBase) (f : PVal) (td : Option TypesDecl), g.index ≠ ["<root>"] →
          GuardBase.on_fail g f td false
            = .error (.tomlAccessError "On Fail not declared at entry" g.index)) := by
  constructor
  · intro g f td hok
    rw [GuardBase.on_fail]
    simp only [Bool.not_true, Bool.and_false, Bool.false_eq_true, if_false]
    rw [mkFailProxy]
    have hcond : (pvTruthy f && !matchTypeOk (td.getD .anyT) (storeFB f)) = false := by
      cases ht : pvTruthy f
      · simp
      · rw [hok ht]
        simp
    rw [hcond]
    rfl
  · intro g f td h
    rw [GuardBase.on_fail]
    simp [h]

/-- Witness for the amended C9: a non-root tree, a passing fallback, and the
not-at-entry raise without `non_root`. -/
theorem claim_C9_non_root_witness :
    GuardBase.on_fail ⟨[("k", vInt 1)], ["<root>", "sub"]⟩ (.v (vStr "fb")) none true
      = .ok ⟨.v (vGuard [("k", vInt 1)] ["<root>", "sub"]), .anyT, ["<root>"], .v (vStr "fb")⟩ :=
  claim_C9_non_root.1 ⟨[("k", vInt 1)], ["<root>", "sub"]⟩ (.v (vStr "fb")) none
    (fun _ => rfl)

/--
C10: a fallback given as the one-element tuple `(None,)` is stored as the
null fallback `None`: any proxy `on_fail((None,))` successfully constructs
has stored fallback `None`; invoking a missing-path (no-value) accessor
with stored fallback `None` and no declared type returns `None`; while a
missing-path accessor with *no* fallback at all raises the no-fallback
error instead.
-/
theorem claim_C10_none_tuple :
    (∀ (g : GuardBase) (td : Option TypesDecl) (p : FailProxy),
        GuardBase.on_fail g (.v (vTuple [vNone])) td false = .ok p → p.fallback = .v vNone)
      ∧ (∀ (q : FailProxy) (r : Registry), q.data = .nullFB → q.fallback = .v vNone →
          q.types = .anyT → (q.call r).1 = .ok (.v vNone))
      ∧ (∀ (q : FailProxy) (r : Registry), q.data = .nullFB → q.fallback = .nullFB →
          (q.call r).1 = .error (.valueError "No Value, and no fallback")) := by
  refine ⟨?_, ?_, ?_⟩
  · intro g td p h
    rw [GuardBase.on_fail] at h
    by_cases hc : (decide ¬g.index = ["<root>"] && !false) = true
    · rw [if_pos hc] at h
      exact absurd h (fun h2 => Except.noConfusion h2)
    · rw [if_neg hc] at h
      rw [mkFailProxy] at h
      cases hm : matchTypeOk (td.getD .anyT) (storeFB (.v (vTuple [vNone])))
      · rw [hm] at h
        simp only [pvTruthy, pyTruthy] at h
        exact absurd h (fun h2 => Except.noConfusion h2)
      · rw [hm] at h
        simp only [pvTruthy, pyTruthy] at h
        cases h
        rfl
  · intro q r hd hf ht
    rw [FailProxy.call, hd, hf, ht]
    rfl
  · intro q r hd hf
    rw [FailProxy.call, hd, hf]

/-- Witness for C10: a concrete `(None,)` entry construction, a `None`
fallback invocation, and a fallback-less invocation. -/
theorem claim_C10_none_tuple_witness :
    FailProxy.fallback ⟨.v (vGuard [] ["<root>"]), .anyT, ["<root>"], .v vNone⟩ = .v vNone
      ∧ (FailProxy.call ⟨.nullFB, .anyT, ["<root>", "m"], .v vNone⟩ []).1 = .ok (.v vNone)
      ∧ (FailProxy.call ⟨.nullFB, .anyT, ["<root>", "m"], .nullFB⟩ []).1
          = .error (.valueError "No Value, and no fallback") :=
  ⟨claim_C10_none_tuple.1 ⟨[], ["<root>"]⟩ none
      ⟨.v (vGuard [] ["<root>"]), .anyT, ["<root>"], .v vNone⟩ rfl,
    claim_C10_none_tuple.2.1 ⟨.nullFB, .anyT, ["<root>", "m"], .v vNone⟩ [] rfl rfl rfl,
    claim_C10_none_tuple.2.2 ⟨.nullFB, .anyT, ["<root>", "m"], .nullFB⟩ [] rfl rfl⟩
